import Mathlib

/-!
Verification of the CSV-to-billing ingestion script (src/main.py) against its
specification.  The script's pure helpers (`parse_int`, the customer name and
email derivations) are embedded directly; the effectful per-row workflow of
`main` is embedded as a trace-producing state function over an environment
that decides the outcome of each billing-API call.  Python's `uuid.uuid4`
fresh-token generator is modelled by a counter whose successive values are
distinct, matching the spec's "fresh random unique token" reading.
-/

/-- Python `str.replace(old, new)` for a one-character pattern `old`:
every occurrence of the character is replaced by the string `new`. -/
def pyReplaceChar (old : Char) (new : String) (s : String) : String :=
  ⟨s.data.flatMap (fun c => if c = old then new.data else [c])⟩

/-- Worker for Python `str.title`: a cased (alphabetic) character is
uppercased when the previous character was not cased and lowercased
otherwise; non-cased characters pass through and reset the word state. -/
def pyTitleGo : Bool → List Char → List Char
  | _, [] => []
  | prevCased, c :: cs =>
    if c.isAlpha then
      (if prevCased then c.toLower else c.toUpper) :: pyTitleGo true cs
    else
      c :: pyTitleGo false cs

/-- Python `str.title`. -/
def pyTitle (s : String) : String :=
  ⟨pyTitleGo false s.data⟩

/-- Python whitespace (`str.strip` default set, ASCII part). -/
def pySpace (c : Char) : Bool :=
  c == ' ' || c == '\t' || c == '\n' || c == '\r' || c == '\x0b' || c == '\x0c'

/-- Python `str.strip()` on a character list. -/
def pyStrip (cs : List Char) : List Char :=
  ((cs.dropWhile pySpace).reverse.dropWhile pySpace).reverse

/-- Value of a list of decimal digits, most significant first. -/
def digitsToNat (cs : List Char) : Nat :=
  cs.foldl (fun a c => 10 * a + (c.toNat - 48)) 0

/-- Python `int()` applied to a string: strip surrounding whitespace, then
an optional sign followed by a nonempty run of decimal digits; anything
else raises `ValueError`.  (PEP 515 underscore grouping is not used by this
program's inputs and is not modelled.) -/
def pyStrToInt (s : String) : Except String Int :=
  let cs := pyStrip s.data
  let sign : Int := if cs.head? = some '-' then -1 else 1
  let ds := if cs.head? = some '+' ∨ cs.head? = some '-' then cs.tail else cs
  if ds ≠ [] ∧ ds.all Char.isDigit then .ok (sign * digitsToNat ds)
  else .error "invalid literal for int() with base 10"

/-- src/main.py `parse_int`: convert a string to an integer, removing
commas and returning 0 if the value is empty.  The `Except` models the
fact that Python `int()` raises on non-numeric remainders. -/
def parse_int (value : String) : Except String Int :=
  if value = "" then .ok 0
  else pyStrToInt (pyReplaceChar ',' "" value)

/-- src/main.py line 97: display name derived from `account_id`
(underscores to spaces, then `str.title`). -/
def deriveName (aid : String) : String :=
  pyTitle (pyReplaceChar '_' " " aid)

/-- src/main.py line 98: placeholder email derived from `account_id`
(underscores to dashes, wrapped in `admin@…​.com`). -/
def deriveEmail (aid : String) : String :=
  "admin@" ++ pyReplaceChar '_' "-" aid ++ ".com"

/-- Replacing a single character by a single-character string is a `map`. -/
lemma pyReplaceChar_single (old repl : Char) (s : String) :
    pyReplaceChar old ⟨[repl]⟩ s =
      ⟨s.data.map (fun c => if c = old then repl else c)⟩ := by
  unfold pyReplaceChar
  congr 1
  induction s.data with
  | nil => rfl
  | cons c cs ih =>
    by_cases h : c = old <;> simp [h, ih]

/-- A `flatMap` that keeps every element is the identity. -/
lemma flatMap_id_of_forall {α : Type} (f : α → List α) (l : List α)
    (h : ∀ c ∈ l, f c = [c]) : l.flatMap f = l := by
  induction l with
  | nil => rfl
  | cons c cs ih =>
    simp only [List.flatMap_cons, h c (List.mem_cons_self c cs)]
    simp [ih (fun x hx => h x (List.mem_cons_of_mem c hx))]

lemma pyReplaceChar_id_of_not_mem (old : Char) (new : String) (s : String)
    (h : ∀ c ∈ s.data, c ≠ old) : pyReplaceChar old new s = s := by
  unfold pyReplaceChar
  conv_rhs => rw [show s = ⟨s.data⟩ from rfl]
  congr 1
  exact flatMap_id_of_forall _ _ (fun c hc => by simp [h c hc])

lemma dropWhile_eq_self_of_head {α : Type} (p : α → Bool) (l : List α)
    (h : ∀ c ∈ l, ¬ p c) : l.dropWhile p = l := by
  cases l with
  | nil => rfl
  | cons c cs => simp [List.dropWhile_cons, h c (List.mem_cons_self c cs)]

lemma pyStrip_of_no_space (cs : List Char) (h : ∀ c ∈ cs, ¬ pySpace c) :
    pyStrip cs = cs := by
  unfold pyStrip
  rw [dropWhile_eq_self_of_head pySpace cs h,
      dropWhile_eq_self_of_head pySpace cs.reverse
        (fun c hc => h c (List.mem_reverse.mp hc)),
      List.reverse_reverse]

lemma digit_not_space {c : Char} (h : c.isDigit) : ¬ pySpace c := by
  simp only [pySpace, Bool.or_eq_true, beq_iff_eq, not_or]
  refine ⟨⟨⟨⟨⟨?_, ?_⟩, ?_⟩, ?_⟩, ?_⟩, ?_⟩ <;>
    rintro rfl <;> simp [Char.isDigit] at h

lemma digit_not_sign {c : Char} (h : c.isDigit) : c ≠ '+' ∧ c ≠ '-' := by
  constructor <;> rintro rfl <;> simp [Char.isDigit] at h

/-- Python `int()` on a plain digit string returns its decimal value. -/
lemma pyStrToInt_digits (s : String) (hne : s ≠ "")
    (hd : ∀ c ∈ s.data, c.isDigit) :
    pyStrToInt s = .ok (digitsToNat s.data) := by
  have hdata : s.data ≠ [] := by
    intro h
    exact hne (by cases s; simp_all)
  unfold pyStrToInt
  rw [pyStrip_of_no_space s.data (fun c hc => digit_not_space (hd c hc))]
  have hhead : ∀ c, s.data.head? = some c → c ≠ '+' ∧ c ≠ '-' := by
    intro c hc
    exact digit_not_sign (hd c (List.mem_of_mem_head? hc))
  cases hh : s.data.head? with
  | none => simp [List.head?_eq_none_iff.mp hh] at hdata
  | some c =>
    have hc := hhead c hh
    simp only [hh]
    have h1 : (some c = some '-') = False := by simp [hc.2]
    have h2 : (some c = some '+') = False := by simp [hc.1]
    simp only [h1, h2, if_false, false_or, or_false]
    have : s.data.all Char.isDigit := List.all_eq_true.mpr (fun c hc => hd c hc)
    simp [hdata, this]

/-- C6: `parse_int` maps `""` to 0, `"1,234"` to 1234, and any plain digit
string to its decimal value. -/
theorem parse_int_spec :
    parse_int "" = .ok 0 ∧ parse_int "1,234" = .ok 1234 ∧
      ∀ s : String, s ≠ "" → (∀ c ∈ s.data, c.isDigit) →
        parse_int s = .ok (digitsToNat s.data) := by
  refine ⟨rfl, by rfl, ?_⟩
  intro s hne hd
  unfold parse_int
  rw [if_neg hne,
      pyReplaceChar_id_of_not_mem ',' "" s
        (fun c hc => by rintro rfl; have := hd ',' hc; simp [Char.isDigit] at this),
      pyStrToInt_digits s hne hd]

/-- C6 witness. -/
theorem parse_int_spec_witness :
    parse_int "5708" = .ok (digitsToNat "5708".data) :=
  parse_int_spec.2.2 "5708" (by decide) (by decide)

/-- C7: the display-name derivation replaces every underscore by a space
and title-cases the result; in particular `"acme_corp"` becomes
`"Acme Corp"`. -/
theorem deriveName_spec :
    deriveName "acme_corp" = "Acme Corp" ∧
      ∀ aid : String,
        (pyReplaceChar '_' " " aid).data =
          aid.data.map (fun c => if c = '_' then ' ' else c) ∧
        deriveName aid = pyTitle (pyReplaceChar '_' " " aid) := by
  refine ⟨by rfl, fun aid => ⟨?_, rfl⟩⟩
  rw [show (" " : String) = ⟨[' ']⟩ from rfl, pyReplaceChar_single]

/-- C8: the email derivation is `admin@` + `account_id` with underscores
dashed + `.com`; in particular `"acme_corp"` yields
`"admin@acme-corp.com"`. -/
theorem deriveEmail_spec :
    deriveEmail "acme_corp" = "admin@acme-corp.com" ∧
      ∀ aid : String,
        (pyReplaceChar '_' "-" aid).data =
          aid.data.map (fun c => if c = '_' then '-' else c) ∧
        deriveEmail aid = "admin@" ++ pyReplaceChar '_' "-" aid ++ ".com" := by
  refine ⟨by rfl, fun aid => ⟨?_, rfl⟩⟩
  rw [show ("-" : String) = ⟨['-']⟩ from rfl, pyReplaceChar_single]

/-- One record produced by `csv.DictReader` over the input table. -/
structure Row where
  account_id : String
  transaction_id : String
  account_type : String
  bank_id : String
  standard : String
  sameday : String
  month : String
deriving DecidableEq, Repr

/-- The billing-platform customer record; only its platform-assigned `id`
is consumed by the script. -/
structure Customer where
  id : String
deriving DecidableEq, Repr

/-- One value of the free-form `properties` mapping. -/
inductive PropValue where
  | str (s : String)
  | int (n : Int)
deriving DecidableEq, Repr

/-- The event payload built at src/main.py lines 137-152.  `uuid.uuid4`
tokens are modelled as naturals drawn from the run's fresh-token counter. -/
structure UsageEvent where
  customer_id : String
  timestamp : String
  idempotency_key : Nat
  event_name : String
  properties : List (String × PropValue)
deriving DecidableEq, Repr

/-- Outcome of `client.customers.fetch_by_external_id`: a customer, or one
of the exception classes caught at lines 58-88 (`APIConnectionError`,
`RateLimitError`, `APIStatusError` with its status code, or any other
exception). -/
inductive FetchOutcome where
  | found (c : Customer)
  | connError
  | rateLimit
  | statusError (code : Nat)
  | otherError
deriving DecidableEq, Repr

/-- Outcome of `client.customers.create` (lines 95-126). -/
inductive CreateOutcome where
  | ok (c : Customer)
  | connError
  | rateLimit
  | statusError (code : Nat)
  | otherError
deriving DecidableEq, Repr

/-- Outcome of `client.events.ingest` (lines 160-177). -/
inductive IngestOutcome where
  | ok
  | connError
  | rateLimit
  | statusError (code : Nat)
  | otherError
deriving DecidableEq, Repr

/-- The external world: what each billing-API call returns at row index
`i`, and the wall clock read for the event timestamp. -/
structure Env where
  fetch : Nat → String → FetchOutcome
  create : Nat → String → CreateOutcome
  ingest : Nat → List UsageEvent → IngestOutcome
  now : Nat → String

/-- Observable actions of one run, in order. -/
inductive Act where
  | fetchCall (account_id : String)
  | createCall (account_id name email : String) (idempotency_key : Nat)
  | ingestCall (events : List UsageEvent)
  | logSuccess (transaction_id : String)
  | logFailed (transaction_id : String)
  | sleep (seconds : ℚ)
deriving DecidableEq, Repr

/-- Result of one loop iteration: completed normally (carrying the updated
fresh-token counter), called `sys.exit`, or escaped with an uncaught
exception. -/
inductive RowResult where
  | ok (tr : List Act) (uuid : Nat)
  | exited (tr : List Act) (code : Nat)
  | raised (tr : List Act) (msg : String)
deriving DecidableEq, Repr

def RowResult.trace : RowResult → List Act
  | .ok tr _ => tr
  | .exited tr _ => tr
  | .raised tr _ => tr

/-- The `event` dict of src/main.py lines 137-152, for customer id `cid`,
timestamp `ts`, idempotency token `u` and parsed `standard`/`sameday`
values `s`/`d`.  Note `account_id` appears nowhere in `properties`: the
commented-out `external_customer_id` entry at line 140 was replaced by the
top-level `customer_id`. -/
def builtEvent (cid ts : String) (u : Nat) (row : Row) (s d : Int) :
    UsageEvent :=
  { customer_id := cid
    timestamp := ts
    idempotency_key := u
    event_name := "payment_transaction"
    properties :=
      [("transaction_id", .str row.transaction_id),
       ("account_type", .str row.account_type),
       ("bank_id", .str row.bank_id),
       ("standard", .int s),
       ("sameday", .int d),
       ("month", .str row.month)] }

/-- Lines 137-192: build the event payload (dict entries evaluated in
source order, so the idempotency token is drawn before `parse_int` runs),
submit it as a single-event batch, log the outcome, sleep 1.5 seconds.
All five ingest error classes fall through to the failure log. -/
def emitPhase (env : Env) (i : Nat) (row : Row) (cust : Customer) (u : Nat)
    (acc : List Act) : RowResult :=
  match parse_int row.standard with
  | .error msg => .raised acc msg
  | .ok s =>
    match parse_int row.sameday with
    | .error msg => .raised acc msg
    | .ok d =>
      let ev := builtEvent cust.id (env.now i) u row s d
      let acc2 := acc ++ [Act.ingestCall [ev]]
      match env.ingest i [ev] with
      | .ok =>
        .ok (acc2 ++ [Act.logSuccess row.transaction_id,
                      Act.sleep (3 / 2)]) (u + 1)
      | _ =>
        .ok (acc2 ++ [Act.logFailed row.transaction_id,
                      Act.sleep (3 / 2)]) (u + 1)

/-- One iteration of the row loop (lines 47-192).  `u` is the value of the
fresh-token counter entering the iteration.  Fetch errors other than a 404
status exit with code 1; a 404 triggers the creation path, whose four
error classes also all exit with code 1. -/
def processRow (env : Env) (i : Nat) (row : Row) (u : Nat) : RowResult :=
  let acc0 := [Act.fetchCall row.account_id]
  match env.fetch i row.account_id with
  | .found c => emitPhase env i row c u acc0
  | .connError => .exited acc0 1
  | .rateLimit => .exited acc0 1
  | .statusError code =>
    if code = 404 then
      let acc1 := acc0 ++ [Act.createCall row.account_id
        (deriveName row.account_id) (deriveEmail row.account_id) u]
      match env.create i row.account_id with
      | .ok c => emitPhase env i row c (u + 1) acc1
      | _ => .exited acc1 1
    else
      .exited acc0 1
  | .otherError => .exited acc0 1

/-- Result of the whole run (the `for row in csv_reader` loop). -/
inductive RunResult where
  | completed (tr : List Act)
  | exited (tr : List Act) (code : Nat)
  | raised (tr : List Act) (msg : String)
deriving DecidableEq, Repr

def RunResult.trace : RunResult → List Act
  | .completed tr => tr
  | .exited tr _ => tr
  | .raised tr _ => tr

def RunResult.prepend (tr : List Act) : RunResult → RunResult
  | .completed tr2 => .completed (tr ++ tr2)
  | .exited tr2 c => .exited (tr ++ tr2) c
  | .raised tr2 m => .raised (tr ++ tr2) m

/-- The row loop from row index `i` with fresh-token counter `u`. -/
def runRows (env : Env) : Nat → Nat → List Row → RunResult
  | _, _, [] => .completed []
  | i, u, row :: rest =>
    match processRow env i row u with
    | .ok tr u' => RunResult.prepend tr (runRows env (i + 1) u' rest)
    | .exited tr c => .exited tr c
    | .raised tr m => .raised tr m

/-- `main`'s loop over the whole file, counter starting at 0. -/
def runMain (env : Env) (rows : List Row) : RunResult :=
  runRows env 0 0 rows

def Act.isIngest : Act → Bool
  | .ingestCall _ => true
  | _ => false

def Act.isCreate : Act → Bool
  | .createCall _ _ _ _ => true
  | _ => false

/-- All idempotency keys of events submitted for ingestion in a trace. -/
def ingestKeys (tr : List Act) : List Nat :=
  tr.flatMap fun a =>
    match a with
    | .ingestCall evs => evs.map (fun ev => ev.idempotency_key)
    | _ => []

lemma RunResult.trace_prepend (tr : List Act) (r : RunResult) :
    (RunResult.prepend tr r).trace = tr ++ r.trace := by
  cases r <;> rfl

lemma ingestKeys_append (l1 l2 : List Act) :
    ingestKeys (l1 ++ l2) = ingestKeys l1 ++ ingestKeys l2 := by
  simp [ingestKeys]

/-- Exhaustive characterization of one loop iteration: a completed
iteration consumed at least one fresh token, made exactly one ingest call
(a singleton batch whose event key lies in the consumed range) and ended
with the throttle sleep; an exiting iteration uses code 1 and made no
ingest call; an escaping iteration made no ingest call either. -/
lemma processRow_cases (env : Env) (i : Nat) (row : Row) (u : Nat) :
    (match processRow env i row u with
     | .ok tr u' =>
         u < u' ∧
         (∃ k, ingestKeys tr = [k] ∧ u ≤ k ∧ k < u') ∧
         tr.countP Act.isIngest = 1 ∧
         (∀ evs, Act.ingestCall evs ∈ tr → evs.length = 1) ∧
         tr.getLast? = some (Act.sleep (3 / 2))
     | .exited tr c =>
         c = 1 ∧ ingestKeys tr = [] ∧ (∀ evs, Act.ingestCall evs ∉ tr)
     | .raised tr _ =>
         ingestKeys tr = [] ∧ (∀ evs, Act.ingestCall evs ∉ tr)) := by
  unfold processRow emitPhase
  cases hf : env.fetch i row.account_id <;> simp only [hf]
  · -- customer found
    rename_i c
    cases hs : parse_int row.standard <;> simp only [hs]
    · simp [ingestKeys]
    · rename_i s
      cases hd : parse_int row.sameday <;> simp only [hd]
      · simp [ingestKeys]
      · rename_i d
        cases hi : env.ingest i _ <;>
          simp [ingestKeys, Act.isIngest, builtEvent, List.countP_cons]
  · simp [ingestKeys]
  · simp [ingestKeys]
  · -- APIStatusError
    rename_i code
    by_cases h404 : code = 404 <;> simp only [h404, if_true, if_false]
    · cases hc : env.create i row.account_id <;> simp only [hc]
      · rename_i c
        cases hs : parse_int row.standard <;> simp only [hs]
        · simp [ingestKeys]
        · rename_i s
          cases hd : parse_int row.sameday <;> simp only [hd]
          · simp [ingestKeys]
          · rename_i d
            cases hi : env.ingest i _ <;>
              simp [ingestKeys, Act.isIngest, builtEvent, List.countP_cons] <;>
              omega
      all_goals simp [ingestKeys]
    · simp [ingestKeys]
  · simp [ingestKeys]

lemma countP_isIngest_zero (tr : List Act)
    (h : ∀ evs, Act.ingestCall evs ∉ tr) : tr.countP Act.isIngest = 0 := by
  rw [List.countP_eq_zero]
  intro a ha
  cases a <;> first
    | exact fun _ => h _ ha
    | simp [Act.isIngest]

/-- Along any run, the idempotency keys of all events submitted for
ingestion are strictly increasing (hence pairwise distinct), and all lie
at or above the starting counter value. -/
lemma runRows_keys (env : Env) (rows : List Row) :
    ∀ i u, (∀ k ∈ ingestKeys (runRows env i u rows).trace, u ≤ k) ∧
      List.Pairwise (· < ·) (ingestKeys (runRows env i u rows).trace) := by
  induction rows with
  | nil => intro i u; simp [runRows, RunResult.trace, ingestKeys]
  | cons row rest ih =>
    intro i u
    have hc := processRow_cases env i row u
    cases h : processRow env i row u with
    | ok tr u' =>
      rw [h] at hc
      obtain ⟨hu, ⟨k, hkeys, hk1, hk2⟩, -⟩ := hc
      have hrun : runRows env i u (row :: rest) =
          RunResult.prepend tr (runRows env (i + 1) u' rest) := by
        simp [runRows, h]
      rw [hrun, RunResult.trace_prepend, ingestKeys_append, hkeys]
      obtain ⟨ih1, ih2⟩ := ih (i + 1) u'
      constructor
      · intro k' hk'
        rcases List.mem_append.mp hk' with h1 | h2
        · simp at h1; omega
        · have := ih1 k' h2; omega
      · rw [List.singleton_append]
        exact List.pairwise_cons.mpr
          ⟨fun b hb => lt_of_lt_of_le hk2 (ih1 b hb), ih2⟩
    | exited tr c =>
      rw [h] at hc
      have hrun : runRows env i u (row :: rest) = .exited tr c := by
        simp [runRows, h]
      rw [hrun]
      simp [RunResult.trace, hc.2.1]
    | raised tr m =>
      rw [h] at hc
      have hrun : runRows env i u (row :: rest) = .raised tr m := by
        simp [runRows, h]
      rw [hrun]
      simp [RunResult.trace, hc.1]

/-- C5: every iteration makes at most one ingest call and each ingest call
carries a single-event batch; over a whole run, the idempotency keys of
the submitted events are pairwise distinct. -/
theorem ingest_once_and_keys_fresh (env : Env) (i u : Nat) (row : Row)
    (rows : List Row) (evs : List UsageEvent)
    (h : Act.ingestCall evs ∈ (processRow env i row u).trace) :
    evs.length = 1 ∧
    (processRow env i row u).trace.countP Act.isIngest ≤ 1 ∧
    (ingestKeys (runMain env rows).trace).Nodup := by
  have hc := processRow_cases env i row u
  refine ⟨?_, ?_, ?_⟩
  · cases hr : processRow env i row u with
    | ok tr u' =>
      rw [hr] at hc h
      exact hc.2.2.2.1 evs h
    | exited tr c =>
      rw [hr] at hc h
      exact absurd h (hc.2.2 evs)
    | raised tr m =>
      rw [hr] at hc h
      exact absurd h (hc.2 evs)
  · cases hr : processRow env i row u with
    | ok tr u' =>
      rw [hr] at hc
      simp [RowResult.trace, hc.2.2.1]
    | exited tr c =>
      rw [hr] at hc
      simp [RowResult.trace, countP_isIngest_zero tr hc.2.2]
    | raised tr m =>
      rw [hr] at hc
      simp [RowResult.trace, countP_isIngest_zero tr hc.2]
  · exact ((runRows_keys env rows 0 0).2).imp (fun hab => Nat.ne_of_lt hab)

/-- C3: a connectivity or rate-limit failure of the customer lookup makes
the run exit immediately with code 1, having submitted no usage event for
that row and never reaching any later row. -/
theorem lookup_fatal_stops_run (env : Env) (i u : Nat) (row : Row)
    (rest : List Row)
    (hf : env.fetch i row.account_id = .connError ∨
          env.fetch i row.account_id = .rateLimit) :
    runRows env i u (row :: rest) =
      .exited [Act.fetchCall row.account_id] 1 ∧
    ∀ evs, Act.ingestCall evs ∉ (runRows env i u (row :: rest)).trace := by
  have hpr : processRow env i row u =
      .exited [Act.fetchCall row.account_id] 1 := by
    rcases hf with h | h <;> simp [processRow, h]
  refine ⟨by simp [runRows, hpr], ?_⟩
  simp [runRows, hpr, RunResult.trace]

/-- C9: whenever an iteration completes (the only way the loop advances to
the next row), its trace ends with the fixed 1.5-second throttle sleep,
and the run on the remaining rows continues after exactly that trace. -/
theorem row_ends_with_sleep (env : Env) (i u : Nat) (row : Row)
    (rest : List Row) (tr : List Act) (u' : Nat)
    (h : processRow env i row u = .ok tr u') :
    tr.getLast? = some (Act.sleep (3 / 2)) ∧
    runRows env i u (row :: rest) =
      RunResult.prepend tr (runRows env (i + 1) u' rest) := by
  have hc := processRow_cases env i row u
  rw [h] at hc
  exact ⟨hc.2.2.2.2, by simp [runRows, h]⟩

/-- C4: on a 404 from the lookup, exactly one creation call is made for
the row's `account_id`, carrying the derived display name, the synthesized
email and the freshly drawn idempotency token, and the created customer's
id becomes the `customer_id` of the event submitted afterwards. -/
theorem notfound_creates_once (env : Env) (i u : Nat) (row : Row)
    (c : Customer) (s d : Int)
    (hf : env.fetch i row.account_id = .statusError 404)
    (hc : env.create i row.account_id = .ok c)
    (hs : parse_int row.standard = .ok s)
    (hd : parse_int row.sameday = .ok d) :
    ∃ tr u', processRow env i row u = .ok tr u' ∧
      tr.countP Act.isCreate = 1 ∧
      Act.createCall row.account_id (deriveName row.account_id)
        (deriveEmail row.account_id) u ∈ tr ∧
      ∃ ev, Act.ingestCall [ev] ∈ tr ∧ ev.customer_id = c.id := by
  cases hi : env.ingest i [builtEvent c.id (env.now i) (u + 1) row s d] with
  | ok =>
    refine ⟨[Act.fetchCall row.account_id,
             Act.createCall row.account_id (deriveName row.account_id)
               (deriveEmail row.account_id) u,
             Act.ingestCall [builtEvent c.id (env.now i) (u + 1) row s d],
             Act.logSuccess row.transaction_id, Act.sleep (3 / 2)],
            u + 2, ?_, ?_, ?_, ?_⟩
    · simp [processRow, emitPhase, hf, hc, hs, hd, hi]
    · simp [Act.isCreate, List.countP_cons]
    · simp
    · exact ⟨builtEvent c.id (env.now i) (u + 1) row s d, by simp,
        by simp [builtEvent]⟩
  | connError =>
    refine ⟨[Act.fetchCall row.account_id,
             Act.createCall row.account_id (deriveName row.account_id)
               (deriveEmail row.account_id) u,
             Act.ingestCall [builtEvent c.id (env.now i) (u + 1) row s d],
             Act.logFailed row.transaction_id, Act.sleep (3 / 2)],
            u + 2, ?_, ?_, ?_, ?_⟩
    · simp [processRow, emitPhase, hf, hc, hs, hd, hi]
    · simp [Act.isCreate, List.countP_cons]
    · simp
    · exact ⟨builtEvent c.id (env.now i) (u + 1) row s d, by simp,
        by simp [builtEvent]⟩
  | rateLimit =>
    refine ⟨[Act.fetchCall row.account_id,
             Act.createCall row.account_id (deriveName row.account_id)
               (deriveEmail row.account_id) u,
             Act.ingestCall [builtEvent c.id (env.now i) (u + 1) row s d],
             Act.logFailed row.transaction_id, Act.sleep (3 / 2)],
            u + 2, ?_, ?_, ?_, ?_⟩
    · simp [processRow, emitPhase, hf, hc, hs, hd, hi]
    · simp [Act.isCreate, List.countP_cons]
    · simp
    · exact ⟨builtEvent c.id (env.now i) (u + 1) row s d, by simp,
        by simp [builtEvent]⟩
  | statusError code =>
    refine ⟨[Act.fetchCall row.account_id,
             Act.createCall row.account_id (deriveName row.account_id)
               (deriveEmail row.account_id) u,
             Act.ingestCall [builtEvent c.id (env.now i) (u + 1) row s d],
             Act.logFailed row.transaction_id, Act.sleep (3 / 2)],
            u + 2, ?_, ?_, ?_, ?_⟩
    · simp [processRow, emitPhase, hf, hc, hs, hd, hi]
    · simp [Act.isCreate, List.countP_cons]
    · simp
    · exact ⟨builtEvent c.id (env.now i) (u + 1) row s d, by simp,
        by simp [builtEvent]⟩
  | otherError =>
    refine ⟨[Act.fetchCall row.account_id,
             Act.createCall row.account_id (deriveName row.account_id)
               (deriveEmail row.account_id) u,
             Act.ingestCall [builtEvent c.id (env.now i) (u + 1) row s d],
             Act.logFailed row.transaction_id, Act.sleep (3 / 2)],
            u + 2, ?_, ?_, ?_, ?_⟩
    · simp [processRow, emitPhase, hf, hc, hs, hd, hi]
    · simp [Act.isCreate, List.countP_cons]
    · simp
    · exact ⟨builtEvent c.id (env.now i) (u + 1) row s d, by simp,
        by simp [builtEvent]⟩

/-- If an iteration's trace contains an ingest call, the row reached the
emission phase: both numeric fields parsed, the batch is exactly the one
built event, the iteration completed normally, and the success/failure log
line matches the ingest outcome. -/
lemma processRow_ingest_analysis (env : Env) (i u : Nat) (row : Row)
    (evs : List UsageEvent)
    (hmem : Act.ingestCall evs ∈ (processRow env i row u).trace) :
    ∃ cid k s d tr u',
      parse_int row.standard = .ok s ∧
      parse_int row.sameday = .ok d ∧
      evs = [builtEvent cid (env.now i) k row s d] ∧
      processRow env i row u = .ok tr u' ∧
      (env.ingest i evs = .ok → Act.logSuccess row.transaction_id ∈ tr) ∧
      (env.ingest i evs ≠ .ok → Act.logFailed row.transaction_id ∈ tr) := by
  cases hf : env.fetch i row.account_id with
  | found c =>
    cases hs : parse_int row.standard with
    | error msg =>
      have hpr : processRow env i row u =
          .raised [Act.fetchCall row.account_id] msg := by
        simp [processRow, emitPhase, hf, hs]
      rw [hpr] at hmem
      simp [RowResult.trace] at hmem
    | ok s =>
      cases hd : parse_int row.sameday with
      | error msg =>
        have hpr : processRow env i row u =
            .raised [Act.fetchCall row.account_id] msg := by
          simp [processRow, emitPhase, hf, hs, hd]
        rw [hpr] at hmem
        simp [RowResult.trace] at hmem
      | ok d =>
        cases hi : env.ingest i [builtEvent c.id (env.now i) u row s d]
        · have hpr : processRow env i row u =
              .ok [Act.fetchCall row.account_id,
                   Act.ingestCall [builtEvent c.id (env.now i) u row s d],
                   Act.logSuccess row.transaction_id,
                   Act.sleep (3 / 2)] (u + 1) := by
            simp [processRow, emitPhase, hf, hs, hd, hi]
          rw [hpr] at hmem
          simp [RowResult.trace] at hmem
          subst hmem
          refine ⟨c.id, u, s, d, _, _, rfl, rfl, rfl, hpr, ?_, ?_⟩
          · intro _; simp
          · intro hne; exact absurd hi hne
        all_goals {
          have hpr : processRow env i row u =
              .ok [Act.fetchCall row.account_id,
                   Act.ingestCall [builtEvent c.id (env.now i) u row s d],
                   Act.logFailed row.transaction_id,
                   Act.sleep (3 / 2)] (u + 1) := by
            simp [processRow, emitPhase, hf, hs, hd, hi]
          rw [hpr] at hmem
          simp [RowResult.trace] at hmem
          subst hmem
          refine ⟨c.id, u, s, d, _, _, rfl, rfl, rfl, hpr, ?_, ?_⟩
          · intro hok; rw [hi] at hok; simp at hok
          · intro _; simp }
  | connError =>
    have hpr : processRow env i row u =
        .exited [Act.fetchCall row.account_id] 1 := by
      simp [processRow, hf]
    rw [hpr] at hmem
    simp [RowResult.trace] at hmem
  | rateLimit =>
    have hpr : processRow env i row u =
        .exited [Act.fetchCall row.account_id] 1 := by
      simp [processRow, hf]
    rw [hpr] at hmem
    simp [RowResult.trace] at hmem
  | statusError code =>
    by_cases h404 : code = 404
    · subst h404
      cases hc : env.create i row.account_id with
      | ok c =>
        cases hs : parse_int row.standard with
        | error msg =>
          have hpr : processRow env i row u =
              .raised [Act.fetchCall row.account_id,
                       Act.createCall row.account_id
                         (deriveName row.account_id)
                         (deriveEmail row.account_id) u] msg := by
            simp [processRow, emitPhase, hf, hc, hs]
          rw [hpr] at hmem
          simp [RowResult.trace] at hmem
        | ok s =>
          cases hd : parse_int row.sameday with
          | error msg =>
            have hpr : processRow env i row u =
                .raised [Act.fetchCall row.account_id,
                         Act.createCall row.account_id
                           (deriveName row.account_id)
                           (deriveEmail row.account_id) u] msg := by
              simp [processRow, emitPhase, hf, hc, hs, hd]
            rw [hpr] at hmem
            simp [RowResult.trace] at hmem
          | ok d =>
            cases hi : env.ingest i
              [builtEvent c.id (env.now i) (u + 1) row s d]
            · have hpr : processRow env i row u =
                  .ok [Act.fetchCall row.account_id,
                       Act.createCall row.account_id
                         (deriveName row.account_id)
                         (deriveEmail row.account_id) u,
                       Act.ingestCall
                         [builtEvent c.id (env.now i) (u + 1) row s d],
                       Act.logSuccess row.transaction_id,
                       Act.sleep (3 / 2)] (u + 2) := by
                simp [processRow, emitPhase, hf, hc, hs, hd, hi]
              rw [hpr] at hmem
              simp [RowResult.trace] at hmem
              subst hmem
              refine ⟨c.id, u + 1, s, d, _, _, rfl, rfl, rfl, hpr, ?_, ?_⟩
              · intro _; simp
              · intro hne; exact absurd hi hne
            all_goals {
              have hpr : processRow env i row u =
                  .ok [Act.fetchCall row.account_id,
                       Act.createCall row.account_id
                         (deriveName row.account_id)
                         (deriveEmail row.account_id) u,
                       Act.ingestCall
                         [builtEvent c.id (env.now i) (u + 1) row s d],
                       Act.logFailed row.transaction_id,
                       Act.sleep (3 / 2)] (u + 2) := by
                simp [processRow, emitPhase, hf, hc, hs, hd, hi]
              rw [hpr] at hmem
              simp [RowResult.trace] at hmem
              subst hmem
              refine ⟨c.id, u + 1, s, d, _, _, rfl, rfl, rfl, hpr, ?_, ?_⟩
              · intro hok; rw [hi] at hok; simp at hok
              · intro _; simp }
      | connError =>
        have hpr : processRow env i row u =
            .exited [Act.fetchCall row.account_id,
                     Act.createCall row.account_id
                       (deriveName row.account_id)
                       (deriveEmail row.account_id) u] 1 := by
          simp [processRow, hf, hc]
        rw [hpr] at hmem
        simp [RowResult.trace] at hmem
      | rateLimit =>
        have hpr : processRow env i row u =
            .exited [Act.fetchCall row.account_id,
                     Act.createCall row.account_id
                       (deriveName row.account_id)
                       (deriveEmail row.account_id) u] 1 := by
          simp [processRow, hf, hc]
        rw [hpr] at hmem
        simp [RowResult.trace] at hmem
      | statusError code2 =>
        have hpr : processRow env i row u =
            .exited [Act.fetchCall row.account_id,
                     Act.createCall row.account_id
                       (deriveName row.account_id)
                       (deriveEmail row.account_id) u] 1 := by
          simp [processRow, hf, hc]
        rw [hpr] at hmem
        simp [RowResult.trace] at hmem
      | otherError =>
        have hpr : processRow env i row u =
            .exited [Act.fetchCall row.account_id,
                     Act.createCall row.account_id
                       (deriveName row.account_id)
                       (deriveEmail row.account_id) u] 1 := by
          simp [processRow, hf, hc]
        rw [hpr] at hmem
        simp [RowResult.trace] at hmem
    · have hpr : processRow env i row u =
          .exited [Act.fetchCall row.account_id] 1 := by
        simp [processRow, hf, h404]
      rw [hpr] at hmem
      simp [RowResult.trace] at hmem
  | otherError =>
    have hpr : processRow env i row u =
        .exited [Act.fetchCall row.account_id] 1 := by
      simp [processRow, hf]
    rw [hpr] at hmem
    simp [RowResult.trace] at hmem

/-- C2: when the ingest endpoint fails (any of its error classes), a row
that reached ingestion still completes its iteration: the error is caught,
the row is logged as failed, and the run continues with the next row. -/
theorem ingest_errors_soft (env : Env) (i u : Nat) (row : Row)
    (rest : List Row)
    (hing : ∀ evs, env.ingest i evs ≠ .ok)
    (hreach : ∃ evs, Act.ingestCall evs ∈ (processRow env i row u).trace) :
    ∃ tr u', processRow env i row u = .ok tr u' ∧
      Act.logFailed row.transaction_id ∈ tr ∧
      runRows env i u (row :: rest) =
        RunResult.prepend tr (runRows env (i + 1) u' rest) := by
  obtain ⟨evs, hmem⟩ := hreach
  obtain ⟨cid, k, s, d, tr, u', -, -, -, hpr, -, hfail⟩ :=
    processRow_ingest_analysis env i u row evs hmem
  exact ⟨tr, u', hpr, hfail (hing evs), by simp [runRows, hpr]⟩

/-- C1 (amended): every submitted event's `properties` mapping carries the
row's `transaction_id`, `account_type`, `bank_id`, `standard`, `sameday`
and `month` fields — the numeric two parsed by `parse_int` — but does NOT
carry `account_id`, which reaches the platform only through the resolved
`customer_id`. -/
theorem properties_carry_row_fields (env : Env) (i u : Nat) (row : Row)
    (s d : Int) (evs : List UsageEvent) (ev : UsageEvent)
    (hs : parse_int row.standard = .ok s)
    (hd : parse_int row.sameday = .ok d)
    (hmem : Act.ingestCall evs ∈ (processRow env i row u).trace)
    (hev : ev ∈ evs) :
    ev.properties =
      [("transaction_id", PropValue.str row.transaction_id),
       ("account_type", PropValue.str row.account_type),
       ("bank_id", PropValue.str row.bank_id),
       ("standard", PropValue.int s),
       ("sameday", PropValue.int d),
       ("month", PropValue.str row.month)] ∧
    ev.properties.lookup "account_id" = none := by
  obtain ⟨cid, k, s', d', tr, u', hs', hd', hevs, -, -, -⟩ :=
    processRow_ingest_analysis env i u row evs hmem
  have hss : s' = s := by
    have h := hs.symm.trans hs'
    injection h with h2
    exact h2.symm
  have hdd : d' = d := by
    have h := hd.symm.trans hd'
    injection h with h2
    exact h2.symm
  subst hss hdd hevs
  simp only [List.mem_singleton] at hev
  subst hev
  exact ⟨by simp [builtEvent], rfl⟩

/-- C10: `parse_int` is partial on non-empty non-numeric input — on the
string `","` it raises — and because it runs outside every try/except of
the loop body, a row carrying `","` aborts the whole run with an uncaught
exception (neither the soft-failure log path nor an exit-code-1 path), the
event never being submitted and later rows never processed. -/
theorem comma_field_raises_uncaught (env : Env) (i u : Nat) (row : Row)
    (rest : List Row) (c : Customer)
    (hf : env.fetch i row.account_id = .found c)
    (hstd : row.standard = ",") :
    parse_int "," = .error "invalid literal for int() with base 10" ∧
    runRows env i u (row :: rest) =
      .raised [Act.fetchCall row.account_id]
        "invalid literal for int() with base 10" ∧
    ∀ evs, Act.ingestCall evs ∉ (runRows env i u (row :: rest)).trace := by
  have hp : parse_int "," = .error "invalid literal for int() with base 10" :=
    rfl
  have hpr : processRow env i row u =
      .raised [Act.fetchCall row.account_id]
        "invalid literal for int() with base 10" := by
    simp [processRow, emitPhase, hf, hstd, hp]
  exact ⟨hp, by simp [runRows, hpr],
    by simp [runRows, hpr, RunResult.trace]⟩

/-- Concrete customer record used by the closed test runs. -/
def tCustomer : Customer := ⟨"cus_123"⟩

/-- Concrete input row (the spec's end-to-end scenario). -/
def tRow : Row where
  account_id := "acme_corp"
  transaction_id := "T1"
  account_type := "checking"
  bank_id := "B1"
  standard := "1,000"
  sameday := ""
  month := "2024-01"

/-- Environment where every API call succeeds and the customer exists. -/
def tEnvOk : Env where
  fetch := fun _ _ => .found tCustomer
  create := fun _ _ => .ok tCustomer
  ingest := fun _ _ => .ok
  now := fun _ => "2024-01-01T00:00:00+00:00"

/-- Environment where the lookup 404s, creation succeeds, ingest succeeds. -/
def tEnv404 : Env where
  fetch := fun _ _ => .statusError 404
  create := fun _ _ => .ok tCustomer
  ingest := fun _ _ => .ok
  now := fun _ => "2024-01-01T00:00:00+00:00"

/-- Environment where event ingestion raises a connection error. -/
def tEnvIngestFail : Env where
  fetch := fun _ _ => .found tCustomer
  create := fun _ _ => .ok tCustomer
  ingest := fun _ _ => .connError
  now := fun _ => "2024-01-01T00:00:00+00:00"

/-- Environment where the customer lookup raises a connection error. -/
def tEnvFetchFail : Env where
  fetch := fun _ _ => .connError
  create := fun _ _ => .ok tCustomer
  ingest := fun _ _ => .ok
  now := fun _ => "2024-01-01T00:00:00+00:00"

/-- The event the script builds for `tRow` once `tCustomer` is resolved
with fresh token `k`. -/
def tEv (k : Nat) : UsageEvent :=
  builtEvent "cus_123" "2024-01-01T00:00:00+00:00" k tRow 1000 0

/-- The trace of the all-success run over `tRow`. -/
def tTr : List Act :=
  [Act.fetchCall "acme_corp", Act.ingestCall [tEv 0],
   Act.logSuccess "T1", Act.sleep (3 / 2)]

lemma tTr_processRow : processRow tEnvOk 0 tRow 0 = .ok tTr 1 := rfl

lemma tMemOk : Act.ingestCall [tEv 0] ∈ (processRow tEnvOk 0 tRow 0).trace := by
  have ht : (processRow tEnvOk 0 tRow 0).trace = tTr := rfl
  rw [ht]
  simp [tTr]

lemma tMemFail :
    Act.ingestCall [tEv 0] ∈ (processRow tEnvIngestFail 0 tRow 0).trace := by
  have ht : (processRow tEnvIngestFail 0 tRow 0).trace =
      [Act.fetchCall "acme_corp", Act.ingestCall [tEv 0],
       Act.logFailed "T1", Act.sleep (3 / 2)] := rfl
  rw [ht]
  simp

/-- C1 (counterexample): in the all-success run over `tRow`, the one
submitted event's `properties` does not carry the row's `account_id`
field, refuting the claim that `properties` carries all row fields. -/
theorem submitted_properties_lack_account_id :
    Act.ingestCall [tEv 0] ∈ (runMain tEnvOk [tRow]).trace ∧
    (tEv 0).properties.lookup "account_id" = none ∧
    (∀ v, ("account_id", v) ∉ (tEv 0).properties) ∧
    (tEv 0).properties.lookup "transaction_id" =
      some (PropValue.str "T1") := by
  refine ⟨?_, rfl, ?_, rfl⟩
  · have ht : (runMain tEnvOk [tRow]).trace = tTr := rfl
    rw [ht]
    simp [tTr]
  · intro v hv
    simp [tEv, builtEvent, tRow] at hv

/-- C1 (amended) witness. -/
theorem properties_carry_row_fields_witness :
    (tEv 0).properties =
      [("transaction_id", PropValue.str tRow.transaction_id),
       ("account_type", PropValue.str tRow.account_type),
       ("bank_id", PropValue.str tRow.bank_id),
       ("standard", PropValue.int 1000),
       ("sameday", PropValue.int 0),
       ("month", PropValue.str tRow.month)] ∧
    (tEv 0).properties.lookup "account_id" = none :=
  properties_carry_row_fields tEnvOk 0 0 tRow 1000 0 [tEv 0] (tEv 0)
    rfl rfl tMemOk (by simp)

/-- C2 witness. -/
theorem ingest_errors_soft_witness :
    ∃ tr u', processRow tEnvIngestFail 0 tRow 0 = .ok tr u' ∧
      Act.logFailed tRow.transaction_id ∈ tr ∧
      runRows tEnvIngestFail 0 0 (tRow :: []) =
        RunResult.prepend tr (runRows tEnvIngestFail 1 u' []) :=
  ingest_errors_soft tEnvIngestFail 0 0 tRow []
    (fun _ h => by simp [tEnvIngestFail] at h)
    ⟨[tEv 0], tMemFail⟩

/-- C3 witness. -/
theorem lookup_fatal_stops_run_witness :
    runRows tEnvFetchFail 0 0 (tRow :: []) =
      .exited [Act.fetchCall tRow.account_id] 1 ∧
    ∀ evs, Act.ingestCall evs ∉
      (runRows tEnvFetchFail 0 0 (tRow :: [])).trace :=
  lookup_fatal_stops_run tEnvFetchFail 0 0 tRow [] (Or.inl rfl)

/-- C4 witness. -/
theorem notfound_creates_once_witness :
    ∃ tr u', processRow tEnv404 0 tRow 0 = .ok tr u' ∧
      tr.countP Act.isCreate = 1 ∧
      Act.createCall tRow.account_id (deriveName tRow.account_id)
        (deriveEmail tRow.account_id) 0 ∈ tr ∧
      ∃ ev, Act.ingestCall [ev] ∈ tr ∧ ev.customer_id = tCustomer.id :=
  notfound_creates_once tEnv404 0 0 tRow tCustomer 1000 0 rfl rfl rfl rfl

/-- C5 witness. -/
theorem ingest_once_and_keys_fresh_witness :
    ([tEv 0] : List UsageEvent).length = 1 ∧
    (processRow tEnvOk 0 tRow 0).trace.countP Act.isIngest ≤ 1 ∧
    (ingestKeys (runMain tEnvOk [tRow, tRow]).trace).Nodup :=
  ingest_once_and_keys_fresh tEnvOk 0 0 tRow [tRow, tRow] [tEv 0] tMemOk

/-- C9 witness. -/
theorem row_ends_with_sleep_witness :
    tTr.getLast? = some (Act.sleep (3 / 2)) ∧
    runRows tEnvOk 0 0 (tRow :: []) =
      RunResult.prepend tTr (runRows tEnvOk 1 1 []) :=
  row_ends_with_sleep tEnvOk 0 0 tRow [] tTr 1 tTr_processRow

/-- Row whose `standard` field is the non-numeric string `","`. -/
def tRowComma : Row := { tRow with standard := "," }

/-- C10 witness. -/
theorem comma_field_raises_uncaught_witness :
    parse_int "," = .error "invalid literal for int() with base 10" ∧
    runRows tEnvOk 0 0 (tRowComma :: [tRow]) =
      .raised [Act.fetchCall tRowComma.account_id]
        "invalid literal for int() with base 10" ∧
    ∀ evs, Act.ingestCall evs ∉
      (runRows tEnvOk 0 0 (tRowComma :: [tRow])).trace :=
  comma_field_raises_uncaught tEnvOk 0 0 tRowComma [tRow] tCustomer rfl rfl
